import Mathlib

/-!
Verification development for the sapphire-wm window manager.

The repository contains two generations of the same data model:

* the "clients" generation (`src/clients/mod.rs`, `src/clients/client_state.rs`,
  `src/clients/clients.rs`, `src/handlers.rs`, `src/window_manager.rs`,
  `src/tag/mod.rs` with its `Manager`), and
* the "screen" generation (`src/client/mod.rs`, `src/screen/mod.rs`).

Both share the same essential shapes, so the embedding below uses one set
of Lean structures and notes, per definition, which source function it
embeds.  Machine integers are modelled as `Nat`/`Int` with explicit
wrapping (`% 2^32`, `% 2^64`) where the Rust code can overflow; X11 side
effects (property writes, configure requests, process spawns) are either
ignored (when no claim depends on them) or reified as explicit command
lists; Rust panics (`unwrap` failures) and infinite loops are reified as
explicit outcomes (`panicked`, fuel exhaustion).
-/

set_option autoImplicit false

namespace Sapphire

/-- `ClientState` from `src/clients/client_state.rs` (the `src/client/…`
generation re-exports the same enum; `Tile` is the "no state" marker). -/
inductive ClientState where
  | tile
  | fullscreen
  | maximized
  | sticky
  | hidden
  deriving DecidableEq, Repr

/-- `ClientType` from `src/client/kind.rs`. -/
inductive CType where
  | normal
  | dock
  | dialog
  | splash
  deriving DecidableEq, Repr

/-- `Operation` from `src/util.rs`: the decoded `_NET_WM_STATE` action;
any value other than ADD/REMOVE/TOGGLE decodes to `unknown`. -/
inductive Operation where
  | add
  | remove
  | toggle
  | unknown
  deriving DecidableEq, Repr

/-- `Dir` from `src/tag/mod.rs`. -/
inductive Dir where
  | left
  | right
  deriving DecidableEq, Repr

/-! ### State-list operations (`src/clients/client_state.rs`, also present
verbatim in `src/clients/mod.rs` and `src/clients/client.rs`).

The X-property writes (`xcb::change_property`) performed alongside each
mutation are side effects on the server and are not part of the stored
state list, so they are not modelled. -/

/-- `Client::has_state` (`src/clients/client_state.rs:50`): membership in
the stored state list. -/
def hasStateL (l : List ClientState) (s : ClientState) : Bool :=
  l.any (· == s)

/-- `Client::last_state` (`src/clients/client_state.rs:58`):
`states.last().unwrap_or(Tile)`. -/
def lastStateL (l : List ClientState) : ClientState :=
  (l.getLast?).getD ClientState.tile

/-- `Client::add_state` (`src/clients/client_state.rs:64`): push to the
end of the list unless already present. -/
def addStateL (l : List ClientState) (s : ClientState) : List ClientState :=
  if hasStateL l s then l else l ++ [s]

/-- `Client::remove_state` (`src/clients/client_state.rs:84`): early
return when absent, otherwise `retain(|x| x != s)` (removes every
occurrence). -/
def removeStateL (l : List ClientState) (s : ClientState) : List ClientState :=
  if hasStateL l s then l.filter (· != s) else l

/-- `Client::set_state` (`src/clients/client_state.rs:107`, identically
`src/clients/mod.rs:216`): returns the mutated state list together with
the `Result<(), String>` (`none` = `Ok(())`, `some msg` = `Err(msg)`).
The `Unknown` arm returns before touching the list. -/
def setStateL (l : List ClientState) (s : ClientState) (op : Operation) :
    List ClientState × Option String :=
  match op with
  | .add => (addStateL l s, none)
  | .remove => (removeStateL l s, none)
  | .toggle => (if hasStateL l s then removeStateL l s else addStateL l s, none)
  | .unknown => (l, some "Unknown operation")

/-- The client of the "clients" generation (`src/clients/mod.rs`),
restricted to the fields its state machinery reads and writes. -/
structure StClient where
  wid : Nat
  states : List ClientState
  deriving DecidableEq, Repr

/-- `Client::has_state` lifted to the client record. -/
def StClient.has_state (c : StClient) (s : ClientState) : Bool :=
  hasStateL c.states s

/-- `Client::set_state` lifted to the client record. -/
def StClient.set_state (c : StClient) (s : ClientState) (op : Operation) :
    StClient × Option String :=
  let r := setStateL c.states s op
  ({ c with states := r.1 }, r.2)

/-! ### `util::math::cycle_idx` (`src/util.rs:40`)

```rust
pub fn cycle_idx(s: usize, i: i32) -> Option<usize> {
    if s > 1 {
        Some((if i < 0 { i + s as i32 } else { i % s as i32 }) as usize)
    } else {
        None
    }
}
```

`s as i32` truncates to 32 bits and reinterprets; `%` on `i32` is Rust's
truncated remainder (`Int.tmod`); the final `as usize` sign-extends the
`i32` to 64 bits and reinterprets, modelled as `% 2^64` on the integer. -/

/-- `2^32`. -/
def M32 : Nat := 4294967296

/-- `2^64`. -/
def M64 : Nat := 18446744073709551616

/-- Rust `s as i32` for `s : usize`. -/
def i32ofUsize (s : Nat) : Int :=
  let r := s % M32
  if r < 2147483648 then (r : Int) else (r : Int) - (M32 : Int)

/-- Rust `x as usize` for `x : i32` on a 64-bit target: sign-extend, then
reinterpret as unsigned. -/
def usizeOfI32 (x : Int) : Nat :=
  (x % (M64 : Int)).toNat

/-- `util::math::cycle_idx` (`src/util.rs:40`). -/
def cycle_idx (s : Nat) (i : Int) : Option Nat :=
  if s > 1 then
    some (usizeOfI32 (if i < 0 then i + i32ofUsize s else Int.tmod i (i32ofUsize s)))
  else
    none

/-! ### The client of the "screen" generation (`src/client/mod.rs`) -/

/-- `Client` from `src/client/mod.rs`, restricted to the fields read by
`Client::new`'s control-flow and by `Client::kill`: the window id, the
`is_controlled` flag, the window types, the supported ICCCM protocol
atoms and the stored state list.  (The best-effort property reads that
only fill `wm_class` / `wm_name` / `wm_pid` / paddings are inputs of the
constructor and irrelevant to the claims over this type.) -/
structure NClient where
  id : Nat
  is_controlled : Bool
  types : List CType
  protocols : List Nat
  states : List ClientState
  deriving DecidableEq, Repr

/-- `Client::preferable_type` (`src/client/kind.rs:54`): first element of
the types list. -/
def NClient.preferable_type (c : NClient) : Option CType :=
  c.types.get? 0

/-- `Client::add_state` of this generation lives in the (absent)
`src/client/state.rs`; the same method of the "clients" generation
(`src/clients/mod.rs:173`) pushes to the end of the list unless the state
is already present, which is what `addStateL` does. -/
def NClient.add_state (c : NClient) (s : ClientState) : NClient :=
  { c with states := addStateL c.states s }

/-- `Client::new` (`src/client/mod.rs:72`): the constructor initialises
the stored state list to `vec![ClientState::Tile]`, takes the queried
window types and protocols as inputs, and then either pushes `Sticky`
(dock) or marks the client controlled (anything else).  The
`allow_action(s)` calls only rewrite the `_NET_WM_ALLOWED_ACTIONS`
property on the server. -/
def NClient.new (id : Nat) (types : List CType) (protocols : List Nat) : NClient :=
  let client : NClient :=
    { id := id
      is_controlled := false
      types := types
      protocols := protocols
      states := [ClientState.tile] }
  if client.preferable_type = some CType.dock then
    client.add_state ClientState.sticky
  else
    { client with is_controlled := true }

/-! ### Tags and the Screen / Manager

`Tag` (`src/tag/mod.rs:23`): id, alias, `focused_wid` (0 = no focus) and
the client deque (front = most recent / master).  The screen generation's
`Tag` has the same client-list shape.  Clients are restricted to the
fields the tag/screen operations read: id, `is_controlled`, `wm_pid`
(used by `on_destroy_notify`) and the state list. -/

structure SClient where
  id : Nat
  is_controlled : Bool
  wmPid : Option Nat
  states : List ClientState
  deriving DecidableEq, Repr

structure STag where
  id : Nat
  aliasName : String
  focusedWid : Nat
  clients : List SClient
  deriving DecidableEq, Repr

/-- `Tag::contains_client` (`src/tag/mod.rs:62`). -/
def STag.containsClient (t : STag) (id : Nat) : Bool :=
  t.clients.any (·.id == id)

/-- `Tag::manage_client` (`src/tag/mod.rs:74`): push to the front. -/
def STag.manageClient (t : STag) (c : SClient) : STag :=
  { t with clients := c :: t.clients }

/-- `Tag::unmanage_client` (`src/tag/mod.rs:80`): `retain(|c| c.id != wid)`. -/
def STag.unmanageClient (t : STag) (wid : Nat) : STag :=
  { t with clients := t.clients.filter (·.id != wid) }

/-- `Tag::get_client` (`src/tag/mod.rs:103`) as an option (the `Err`
carries no state). -/
def STag.getClient? (t : STag) (id : Nat) : Option SClient :=
  t.clients.find? (·.id == id)

/-- `Tag::get_focused_client` (`src/tag/mod.rs:119`): first client whose
id equals `focused_wid`. -/
def STag.getFocusedClient? (t : STag) : Option SClient :=
  t.clients.find? (·.id == t.focusedWid)

/-- `Tag::get_first_client_when` (`src/tag/mod.rs:95`). -/
def STag.getFirstClientWhen? (t : STag) (p : SClient → Bool) : Option SClient :=
  t.clients.find? p

/-- `Tag::set_focused_client` (`src/tag/mod.rs:139`, called
`focus_client` by `src/screen/mod.rs`): when a client with the id exists,
update `focused_wid`; the border/input-focus calls are X side effects. -/
def STag.focusClient (t : STag) (wid : Nat) : STag :=
  if t.clients.any (·.id == wid) then { t with focusedWid := wid } else t

/-- `Tag::swap` (`src/tag/mod.rs:228`): exchange the positions of two
clients found by id; no-op when either is absent. -/
def STag.swapClients (t : STag) (a b : Nat) : STag :=
  match t.clients.findIdx? (·.id == a), t.clients.findIdx? (·.id == b) with
  | some i, some j =>
    match t.clients.get? i, t.clients.get? j with
    | some ci, some cj => { t with clients := (t.clients.set i cj).set j ci }
    | _, _ => t
  | _, _ => t

/-- `Tag::get_client_mut(wid)` followed by `set_state` on the borrowed
client (`src/handlers.rs:150`, `src/window_manager.rs:311`): mutate the
first client with the given id. -/
def STag.setClientState (t : STag) (wid : Nat) (s : ClientState) (op : Operation) : STag :=
  let rec go : List SClient → List SClient
    | [] => []
    | c :: rest =>
      if c.id = wid then { c with states := (setStateL c.states s op).1 } :: rest
      else c :: go rest
  { t with clients := go t.clients }

/-- `Screen` (`src/screen/mod.rs:21`) / `Manager` (`src/tag/mod.rs:343`):
the tag vector and the id of the focused tag.  The connection, root
window and pixel geometry are X-side collaborators. -/
structure Screen where
  focusedTagId : Nat
  tags : List STag
  deriving DecidableEq, Repr

/-- `Screen::contains_tag` (`src/screen/mod.rs:158`). -/
def Screen.containsTag (s : Screen) (id : Nat) : Bool :=
  s.tags.any (·.id == id)

/-- `Screen::get_tag` (`src/screen/mod.rs:178`): first tag with the id. -/
def Screen.getTag? (s : Screen) (id : Nat) : Option STag :=
  s.tags.find? (·.id == id)

/-- In-place mutation through `get_tag_mut` (`src/screen/mod.rs:187`):
apply `f` to the first tag with the given id, leaving the rest alone. -/
def updateTagF (ts : List STag) (id : Nat) (f : STag → STag) : List STag :=
  match ts with
  | [] => []
  | t :: rest => if t.id = id then f t :: rest else t :: updateTagF rest id f

/-- Outcome of `Screen::move_focused_client`: `ok` carries the new state;
`tagNotFound` carries the returned error id together with the state,
which the source leaves untouched because both error returns happen
before any mutation; `panicked` models a failing `unwrap()`. -/
inductive MoveResult where
  | ok (s : Screen)
  | tagNotFound (id : Nat) (s : Screen)
  | panicked
  deriving DecidableEq, Repr

/-- The mutation `move_focused_client` applies to the source tag
(`src/screen/mod.rs:276-289`): unmanage the focused client, then focus
the most recent controlled client if any (otherwise the input focus is
disabled on the server only). -/
def moveSrcMutate (cid : Nat) (t : STag) : STag :=
  match (t.unmanageClient cid).getFirstClientWhen? (·.is_controlled) with
  | some c => (t.unmanageClient cid).focusClient c.id
  | none => t.unmanageClient cid

/-- The mutation `move_focused_client` applies to the destination tag
(`src/screen/mod.rs:292-296`): manage the moved client at the front and
focus it. -/
def moveDestMutate (client : SClient) (t : STag) : STag :=
  (t.manageClient client).focusClient client.id

/-- `Screen::move_focused_client` (`src/screen/mod.rs:264`; identical
control flow in `Manager::move_focused_client`, `src/tag/mod.rs:474`).
The `unmap`, `disable_input_focus`, `set_client_tag` and `arrange_tag` /
`refresh_tag` calls are X side effects.  The focused client of the source
tag is read with `get_focused_client_mut().unwrap()` — a missing focused
client panics. -/
def Screen.moveFocusedClient (s : Screen) (src dest : Nat) : MoveResult :=
  if s.containsTag src = false then .tagNotFound src s
  else if s.containsTag dest = false then .tagNotFound dest s
  else
    match s.getTag? src with
    | none => .panicked
    | some sTag =>
      match sTag.getFocusedClient? with
      | none => .panicked
      | some client =>
        let s1 : Screen :=
          { s with tags := updateTagF s.tags src (moveSrcMutate client.id) }
        let s2 : Screen :=
          { s1 with tags := updateTagF s1.tags dest (moveDestMutate client) }
        .ok s2

/-- `Screen::view_tag` (`src/screen/mod.rs:230`): no-op when the tag is
already focused; `TagNotFound` (the carried error id) when it does not
exist; otherwise only `focused_tag_id` changes in the model — the
map/unmap/input-focus/arrange calls are X side effects. -/
def Screen.viewTag (s : Screen) (id : Nat) : Except Nat Screen :=
  if (s.getTag? s.focusedTagId).any (·.id == id) then .ok s
  else
    match s.getTag? id with
    | none => .error id
    | some _ => .ok { s with focusedTagId := id }

/-! ### `_NET_CLIENT_LIST` refresh (claim C10) -/

/-- Flattened client sequence of a tag vector, in tag iteration order. -/
def flatClients : List STag → List SClient
  | [] => []
  | t :: ts => t.clients ++ flatClients ts

/-- The deque built by `Manager::refresh` (`src/tag/mod.rs:515`): iterate
the tags in order and `push_front` every client. -/
def managerClientList (tags : List STag) : List SClient :=
  tags.foldl (fun acc t => t.clients.foldl (fun acc c => c :: acc) acc) []

/-- The window-id sequence `Manager::refresh` writes to
`_NET_CLIENT_LIST`. -/
def managerRefreshIds (tags : List STag) : List Nat :=
  (managerClientList tags).map (·.id)

/-- The vector built by `Screen::refresh` (`src/screen/mod.rs:305`):
iterate the tags in order and append (`push`) every client. -/
def screenClientList (tags : List STag) : List SClient :=
  tags.foldl (fun acc t => acc ++ t.clients) []

/-- The window-id sequence `Screen::refresh` writes to
`_NET_CLIENT_LIST`. -/
def screenRefreshIds (tags : List STag) : List Nat :=
  (screenClientList tags).map (·.id)

/-! ### Construction (claim C7) -/

/-- The hard-coded alias list of `Screen::new` (`src/screen/mod.rs:101`). -/
def screenTagAliases : List String :=
  ["1", "2", "3", "4", "5", "6", "7", "8", "9"]

/-- The tag vector built by `Screen::new` (`src/screen/mod.rs:101-131`):
one tag per alias with ids 0,1,…, then the sticky tag with the reserved
id `0xFFFFFFFF`. -/
def Screen.init : Screen :=
  let tags :=
    if screenTagAliases.isEmpty then
      [{ id := 0, aliasName := "1", focusedWid := 0, clients := [] }]
    else
      screenTagAliases.enum.map (fun p =>
        { id := p.1, aliasName := p.2, focusedWid := 0, clients := [] })
  { focusedTagId := 0
    tags := tags ++ [{ id := 4294967295, aliasName := "sticky_clients",
                       focusedWid := 0, clients := [] }] }

/-- The tag vector built by `Manager::new` (`src/tag/mod.rs:369`): falls
back to a single tag `0`, then appends a sticky tag whose id is
`(tags.len() - 1) as u32`. -/
def managerNewTags (tags : List STag) : List STag :=
  let tags :=
    if tags.isEmpty then [{ id := 0, aliasName := "1", focusedWid := 0, clients := [] }]
    else tags
  tags ++ [{ id := tags.length - 1, aliasName := "sticky_clients",
             focusedWid := 0, clients := [] }]

/-! ### `Tag::walk` (`src/tag/mod.rs:176`, claim C2)

The Rust `loop` has no structural termination argument, so it is
embedded with fuel: `none` means the fuel ran out with the loop still
running (and, as claim C2 shows, for `Dir::Left` the loop really can run
forever). -/

/-- Result of a finished `Tag::walk`: `found wid` is Rust's `Some(wid)`,
`noneFound` is Rust's `None`, `panicked` models the inner
`get(idx).unwrap()` failing after a reset. -/
inductive WalkRes where
  | found (wid : Nat)
  | noneFound
  | panicked
  deriving DecidableEq, Repr

/-- The `loop` of `Tag::walk` (`src/tag/mod.rs:201-223`).  One fuel unit
per iteration: read the client at `idx`, resetting to `stdIdx` when out
of bounds; return on a predicate match; otherwise step `idx` by `n`
(`checked_sub(n).unwrap_or(0)` going left) and return `None` when the
loop is back at `already`. -/
def walkLoop (cs : List SClient) (pred : SClient → Bool) (n : Nat) (dir : Dir)
    (stdIdx already : Nat) : Nat → Nat → Option WalkRes
  | 0, _ => none
  | fuel + 1, idx =>
    match (match cs.get? idx with
           | some c => some (idx, c)
           | none => (cs.get? stdIdx).map (fun c => (stdIdx, c))) with
    | none => some .panicked
    | some (i, c) =>
      if pred c then some (.found c.id)
      else
        let i' := match dir with
          | .left => i - n
          | .right => i + n
        if i' = already then some .noneFound
        else walkLoop cs pred n dir stdIdx already fuel i'

/-- `Tag::walk` (`src/tag/mod.rs:176`): empty list returns `None`;
otherwise compute the start index from the focused client's position
(falling back to `std_idx`) and run the loop. -/
def STag.walk (t : STag) (n : Nat) (dir : Dir) (pred : SClient → Bool)
    (fuel : Nat) : Option WalkRes :=
  if t.clients.length = 0 then some .noneFound
  else
    let findIdx : Nat → Nat := fun std =>
      (t.clients.findIdx? (fun c => c.id == t.focusedWid)).getD std
    let p : Nat × Nat := match dir with
      | .right => (findIdx 0 + n, 0)
      | .left =>
        let std := t.clients.length - n
        let f := findIdx std
        (if n ≤ f then f - n else std, std)
    walkLoop t.clients pred n dir p.2 p.1 fuel p.1

/-! ### `redraw` (`src/tag/mod.rs:236`, claim C3)

`redraw` (and its twins `Manager::update_tag` / `Clients::resize_tiles`
in `src/clients/clients.rs`) computes, per client, one
`xcb::configure_window` request.  The requests are reified as
`ConfigureCmd` records, in emission order.  All arithmetic is `u32`,
modelled with explicit wrapping. -/

/-- Wrap to `u32`. -/
def w32 (n : Nat) : Nat := n % M32

/-- `u32` wrapping addition. -/
def wadd (a b : Nat) : Nat := w32 (a + b)

/-- `u32` wrapping subtraction (for `a < 2^32`). -/
def wsub (a b : Nat) : Nat := w32 (a + M32 - w32 b)

/-- `u32` wrapping multiplication. -/
def wmul (a b : Nat) : Nat := w32 (a * b)

/-- One `xcb::configure_window` request: border width, height, width, x,
y — the value list of `src/tag/mod.rs:291-300`. -/
structure ConfigureCmd where
  wid : Nat
  border : Nat
  h : Nat
  w : Nat
  x : Nat
  y : Nat
  deriving DecidableEq, Repr

/-- The client of the `redraw` in `src/tag/mod.rs` (the `src/client/…`
generation): id, strut paddings, controlledness, states. -/
structure RClient where
  id : Nat
  paddingTop : Nat
  paddingBottom : Nat
  paddingLeft : Nat
  paddingRight : Nat
  states : List ClientState
  is_controlled : Bool
  deriving DecidableEq, Repr

/-- `clients.iter().map(|c| c.padding.top).max().unwrap_or(0)`. -/
def maxPaddingTop (cs : List RClient) : Nat := (cs.map (·.paddingTop)).foldr max 0

def maxPaddingBottom (cs : List RClient) : Nat := (cs.map (·.paddingBottom)).foldr max 0

def maxPaddingLeft (cs : List RClient) : Nat := (cs.map (·.paddingLeft)).foldr max 0

def maxPaddingRight (cs : List RClient) : Nat := (cs.map (·.paddingRight)).foldr max 0

/-- The filter of `normal_clients` (`src/tag/mod.rs:254`):
`last_state != Hidden && is_controlled`. -/
def normalB (c : RClient) : Bool :=
  (lastStateL c.states != ClientState.hidden) && c.is_controlled

/-- `redraw` (`src/tag/mod.rs:236`): the sequence of configure requests
it issues — first the tiling loop over `normal_clients` (the `i = 0`
master keeps the initial `window_*` values, every later client
reassigns them), then the maximized clients, then the fullscreen
clients. -/
def redrawCmds (borderSize gapSize screenW screenH : Nat)
    (clients : List RClient) : List ConfigureCmd :=
  let paddingTop := maxPaddingTop clients
  let paddingBottom := maxPaddingBottom clients
  let paddingLeft := maxPaddingLeft clients
  let paddingRight := maxPaddingRight clients
  let availableW := wsub (wsub screenW paddingLeft) paddingRight
  let availableH := wsub (wsub screenH paddingTop) paddingBottom
  let normalClients := clients.filter normalB
  let count := normalClients.length
  let normalCmds := normalClients.enum.map (fun p =>
    let i := p.1
    let c := p.2
    if i = 0 then
      { wid := c.id
        border := borderSize
        h := wsub (wsub availableH (wmul borderSize 2)) (wmul gapSize 2)
        w := if count = 1 then
               wsub (wsub availableW (wmul borderSize 2)) (wmul gapSize 2)
             else
               wsub (wsub (availableW / 2) borderSize) gapSize
        x := gapSize
        y := wadd gapSize paddingTop }
    else
      let heightPerWindow := availableH / (count - 1)
      { wid := c.id
        border := borderSize
        h := if (normalClients.getLast?).map (·.id) = some c.id then
               wsub (wsub heightPerWindow (wmul borderSize 2)) (wmul gapSize 2)
             else
               wsub (wsub heightPerWindow borderSize) gapSize
        w := wsub (wsub (availableW / 2) (wmul borderSize 2)) (wmul gapSize 2)
        x := wadd (availableW / 2) gapSize
        y := wadd (wadd (wmul heightPerWindow (i - 1)) paddingTop) gapSize })
  let maxCmds := (clients.filter (fun c =>
      (lastStateL c.states == ClientState.maximized) && c.is_controlled)).map (fun c =>
    { wid := c.id, border := 0, h := availableH, w := availableW,
      x := paddingLeft, y := paddingTop })
  let fsCmds := (clients.filter (fun c =>
      (lastStateL c.states == ClientState.fullscreen) && c.is_controlled)).map (fun c =>
    { wid := c.id, border := 0, h := screenH, w := screenW, x := 0, y := 0 })
  normalCmds ++ maxCmds ++ fsCmds

/-! ### Killing clients and `on_destroy_notify` (claim C8) -/

/-- The process-affecting requests relevant to claim C8. -/
inductive XCmd where
  /-- Polite `WM_DELETE_WINDOW` client message (`src/client/mod.rs:177`). -/
  | sendWmDelete (wid : Nat)
  /-- `xcb::kill_client` (`src/client/mod.rs:199`). -/
  | xKillClient (wid : Nat)
  /-- `std::process::Command::new("kill").args(["-9", pid])`
  (`src/handlers.rs:81`, `src/window_manager.rs:367`). -/
  | processKill9 (pid : Nat)
  deriving DecidableEq, Repr

/-- `Client::kill` (`src/client/mod.rs:173`): when the client advertises
the `WM_DELETE_WINDOW` protocol, send the polite client message;
otherwise issue `xcb::kill_client`. -/
def NClient.kill (c : NClient) (wmDeleteWindowAtom : Nat) : XCmd :=
  if c.protocols.contains wmDeleteWindowAtom then .sendWmDelete c.id
  else .xKillClient c.id

/-- The mutation `on_destroy_notify` applies to the focused tag
(`src/handlers.rs:66-93`): look up the client; unmanage it; when its
`wm_pid` is known, additionally re-focus the first controlled client. -/
def destroyMutate (t : STag) (wid : Nat) : STag :=
  match t.getClient? wid with
  | none => t
  | some client =>
    match client.wmPid with
    | some _ =>
      match (t.unmanageClient client.id).getFirstClientWhen? (·.is_controlled) with
      | some c => (t.unmanageClient client.id).focusClient c.id
      | none => t.unmanageClient client.id
    | none => t.unmanageClient client.id

/-- `on_destroy_notify` (`src/handlers.rs:66`; same logic in
`WindowManager::on_destroy_notify`, `src/window_manager.rs:352`):
`none` models the panic of `get_focused_tag_mut().unwrap()`; otherwise
the new screen state together with the emitted process-affecting
commands — when the destroyed client's `wm_pid` is known the handler
spawns `kill -9 <pid>`. -/
def onDestroyNotify (s : Screen) (wid : Nat) : Option (Screen × List XCmd) :=
  match s.getTag? s.focusedTagId with
  | none => none
  | some tag =>
    match tag.getClient? wid with
    | none => some (s, [])
    | some client =>
      some ({ s with tags := updateTagF s.tags s.focusedTagId (fun t => destroyMutate t wid) },
            match client.wmPid with
            | some pid => [XCmd.processKill9 pid]
            | none => [])

/-! ### Reachable screen states (claim C7)

Every mutation of the screen state performed by the source goes through
the operations embedded above; tags themselves are only ever mutated via
`get_tag_mut` / `sticky_tag_mut` (first-match update by id — the sticky
id is unique after `Screen::new`). -/

/-- One state-mutating operation of the screen generation. -/
inductive Step : Screen → Screen → Prop where
  | view {s s' : Screen} (id : Nat) :
      s.viewTag id = .ok s' → Step s s'
  | move {s s' : Screen} (src dest : Nat) :
      s.moveFocusedClient src dest = .ok s' → Step s s'
  | manage {s : Screen} (tid : Nat) (c : SClient) :
      Step s { s with tags := updateTagF s.tags tid (·.manageClient c) }
  | unmanage {s : Screen} (tid wid : Nat) :
      Step s { s with tags := updateTagF s.tags tid (·.unmanageClient wid) }
  | focus {s : Screen} (tid wid : Nat) :
      Step s { s with tags := updateTagF s.tags tid (·.focusClient wid) }
  | swap {s : Screen} (tid a b : Nat) :
      Step s { s with tags := updateTagF s.tags tid (·.swapClients a b) }
  | clientState {s : Screen} (tid wid : Nat) (st : ClientState) (op : Operation) :
      Step s { s with tags := updateTagF s.tags tid (STag.setClientState · wid st op) }
  | destroy {s s' : Screen} (wid : Nat) (cmds : List XCmd) :
      onDestroyNotify s wid = some (s', cmds) → Step s s'

/-- Screen states reachable from `Screen::new`. -/
inductive Reachable : Screen → Prop where
  | init : Reachable Screen.init
  | step {s s' : Screen} : Reachable s → Step s s' → Reachable s'

/-! ## Helper lemmas -/

theorem hasStateL_false_filter {l : List ClientState} {s : ClientState}
    (h : hasStateL l s = false) : l.filter (· != s) = l := by
  apply List.filter_eq_self.mpr
  intro a ha
  simp only [hasStateL, List.any_eq_false] at h
  have := h a ha
  simp only [beq_iff_eq] at this
  simpa [bne_iff_ne] using this

theorem hasStateL_filter_self (l : List ClientState) (s : ClientState) :
    hasStateL (l.filter (· != s)) s = false := by
  simp only [hasStateL, List.any_eq_false]
  intro a ha
  have := List.of_mem_filter ha
  simpa using this

theorem filter_append_perm_of_mem {l : List ClientState} {s : ClientState}
    (hnd : l.Nodup) (hm : s ∈ l) : (l.filter (· != s) ++ [s]).Perm l := by
  induction l with
  | nil => cases hm
  | cons x xs ih =>
    by_cases hx : x = s
    · subst hx
      have hnx : x ∉ xs := (List.nodup_cons.mp hnd).1
      have hfe : xs.filter (· != x) = xs := by
        apply List.filter_eq_self.mpr
        intro a ha
        apply bne_iff_ne.mpr
        intro he; exact hnx (he ▸ ha)
      rw [List.filter_cons, if_neg (by simp), hfe]
      exact List.perm_append_singleton x xs
    · have hmem : s ∈ xs := by
        rcases List.mem_cons.mp hm with he | hmem
        · exact absurd he.symm hx
        · exact hmem
      have hfe : (x :: xs).filter (· != s) = x :: xs.filter (· != s) := by
        rw [List.filter_cons, if_pos (bne_iff_ne.mpr hx)]
      rw [hfe, List.cons_append]
      exact List.Perm.cons x (ih (List.nodup_cons.mp hnd).2 hmem)

theorem filter_append_eq_of_getLast {l : List ClientState} {s : ClientState}
    (hnd : l.Nodup) (hl : l.getLast? = some s) : l.filter (· != s) ++ [s] = l := by
  induction l with
  | nil => cases hl
  | cons x xs ih =>
    cases xs with
    | nil =>
      simp only [List.getLast?_singleton, Option.some.injEq] at hl
      subst hl
      simp [List.filter_cons]
    | cons y ys =>
      have hl' : (y :: ys).getLast? = some s := by
        rw [List.getLast?_cons_cons] at hl; exact hl
      have hmem : s ∈ y :: ys := by
        have hg := List.getLast?_eq_getLast (y :: ys) (by simp)
        rw [hg] at hl'
        have hs : s = (y :: ys).getLast (by simp) := by
          injection hl' with h; exact h.symm
        rw [hs]; exact List.getLast_mem _
      have hxs : x ≠ s := by
        intro he; exact (List.nodup_cons.mp hnd).1 (he ▸ hmem)
      have hfe : (x :: y :: ys).filter (· != s) = x :: (y :: ys).filter (· != s) := by
        rw [List.filter_cons, if_pos (bne_iff_ne.mpr hxs)]
      rw [hfe, List.cons_append, ih (List.nodup_cons.mp hnd).2 hl']

/-! ## Claim theorems -/

/-- Claim C9 (confirmed).  `Client::set_state` with a selector that is
not Add, Remove or Toggle (i.e. the `Unknown` decoding) fails — the
source returns `Err("Unknown operation")`, the `InvalidOperation` kind of
the error taxonomy — and leaves the stored state list untouched; each of
the three known selectors returns `Ok`. -/
theorem C9_set_state (c : StClient) (s : ClientState) (op : Operation) :
    (op = Operation.unknown →
      c.set_state s op = (c, some "Unknown operation"))
  ∧ (op ≠ Operation.unknown → (c.set_state s op).2 = none) := by
  constructor
  · intro h; subst h; rfl
  · intro h; cases op <;> simp_all [StClient.set_state, setStateL]

/-- Witness for C9 at a concrete client. -/
theorem C9_set_state_witness :
    (StClient.mk 7 [ClientState.fullscreen]).set_state ClientState.maximized
        Operation.unknown
      = (StClient.mk 7 [ClientState.fullscreen], some "Unknown operation")
  ∧ ((StClient.mk 7 [ClientState.fullscreen]).set_state ClientState.maximized
        Operation.add).2 = none :=
  ⟨(C9_set_state (StClient.mk 7 [ClientState.fullscreen]) ClientState.maximized
      Operation.unknown).1 rfl,
   (C9_set_state (StClient.mk 7 [ClientState.fullscreen]) ClientState.maximized
      Operation.add).2 (by decide)⟩

/-- Claim C6 (code bug).  `Client::new` in `src/client/mod.rs:76`
initialises the stored state list to `vec![ClientState::Tile]`, so
`Tile` *is* an element of the stored vector immediately after
construction (for a dock it becomes `[Tile, Sticky]`), contradicting the
claim and the field's own doc comment ("This state is special and is
never included in the list"); `last_state` on a fresh non-dock client
returns `Tile` because the vector is `[Tile]`, not because it is empty. -/
theorem C6_tile_is_stored :
    (NClient.new 100 [] []).states = [ClientState.tile]
  ∧ ClientState.tile ∈ (NClient.new 100 [] []).states
  ∧ (NClient.new 200 [CType.dock] []).states
      = [ClientState.tile, ClientState.sticky]
  ∧ (NClient.new 100 [] []).states ≠ [] := by
  refine ⟨rfl, by decide, rfl, by decide⟩

/-- Claim C4, counterexample.  The claim says `cycle_idx` fails iff
`s = 0`; but at `s = 1 ≠ 0` (one visible client) the code takes the
`s > 1` guard's else branch and returns `None`. -/
theorem C4_cycle_idx_counterexample :
    cycle_idx 1 0 = none ∧ (1 : Nat) ≠ 0 :=
  ⟨rfl, by decide⟩

/-- Claim C4 (amended).  `cycle_idx s i` returns `None` iff `s ≤ 1`
(not iff `s = 0`); for `s > 1` and a non-negative offset it returns
`Some (i mod s)`, and a negative offset is wrapped by a single addition
of `s` (not a full modulo), which lands in `[0, s)` exactly because of
the hypothesis `-s ≤ i`.  Bounds keep the `usize`/`i32` casts exact. -/
theorem C4_cycle_idx (s : Nat) (i : Int)
    (hs : s < 2147483648) (hlo : -(s : Int) ≤ i) (hhi : i < 2147483648) :
    (cycle_idx s i = none ↔ s ≤ 1)
  ∧ (1 < s → 0 ≤ i → cycle_idx s i = some (i.toNat % s))
  ∧ (1 < s → i < 0 → cycle_idx s i = some (i + s).toNat)
  ∧ (∀ r, cycle_idx s i = some r → r < s) := by
  have hcast : i32ofUsize s = (s : Int) := by
    unfold i32ofUsize
    have h1 : s % M32 = s := Nat.mod_eq_of_lt (by unfold M32; omega)
    simp only [h1]
    rw [if_pos (by exact_mod_cast hs)]
  refine ⟨?_, ?_, ?_, ?_⟩
  · constructor
    · intro hnone
      by_contra hc
      unfold cycle_idx at hnone
      rw [if_pos (by omega)] at hnone
      cases hnone
    · intro hle
      unfold cycle_idx
      rw [if_neg (by omega)]
  · intro h1 h2
    unfold cycle_idx
    rw [if_pos h1, if_neg (by omega), hcast]
    have hmod : Int.tmod i (s : Int) = ((i.toNat % s : Nat) : Int) := by
      conv_lhs => rw [← Int.toNat_of_nonneg h2]
      rw [← Int.ofNat_tmod]
    rw [hmod]
    unfold usizeOfI32
    congr 1
    have hb : ((i.toNat % s : Nat) : Int) < (M64 : Nat) := by
      have : i.toNat % s < s := Nat.mod_lt _ (by omega)
      unfold M64; exact_mod_cast (by omega : i.toNat % s < 18446744073709551616)
    rw [Int.emod_eq_of_lt (by positivity) hb]
    exact Int.toNat_ofNat _
  · intro h1 h2
    unfold cycle_idx
    rw [if_pos h1, if_pos h2, hcast]
    unfold usizeOfI32
    congr 1
    rw [Int.emod_eq_of_lt (by omega) (by unfold M64; push_cast; omega)]
  · intro r hr
    unfold cycle_idx at hr
    by_cases h1 : s > 1
    swap
    · rw [if_neg h1] at hr; cases hr
    rw [if_pos h1] at hr
    by_cases h2 : i < 0
    · rw [if_pos h2, hcast] at hr
      injection hr with hr
      subst hr
      unfold usizeOfI32
      rw [Int.emod_eq_of_lt (by omega) (by unfold M64; push_cast; omega)]
      omega
    · rw [if_neg h2, hcast] at hr
      have hmod : Int.tmod i (s : Int) = ((i.toNat % s : Nat) : Int) := by
        conv_lhs => rw [← Int.toNat_of_nonneg (by omega : (0:Int) ≤ i)]
        rw [← Int.ofNat_tmod]
      rw [hmod] at hr
      injection hr with hr
      subst hr
      unfold usizeOfI32
      have hlt : i.toNat % s < s := Nat.mod_lt _ (by omega)
      rw [Int.emod_eq_of_lt (by positivity)
        (by unfold M64; exact_mod_cast (by omega : i.toNat % s < 18446744073709551616))]
      rw [Int.toNat_ofNat]
      exact hlt

/-- Witness for C4 at `s = 5`, `i = -3`: the offset wraps to index 2. -/
theorem C4_cycle_idx_witness : cycle_idx 5 (-3) = some 2 := by
  have h := (C4_cycle_idx 5 (-3) (by decide) (by decide) (by decide)).2.2.1
    (by decide) (by decide)
  simpa using h

/-- Claim C5, counterexample.  Toggling a state that is *not* the last
element does not restore the original list: on states
`[Fullscreen, Maximized]` (reachable by `add(Fullscreen); add(Maximized)`),
`toggle(Fullscreen); toggle(Fullscreen)` yields
`[Maximized, Fullscreen]` — same elements, different order — because
`remove_state` deletes in place while `add_state` pushes to the end. -/
theorem C5_toggle_counterexample :
    (((StClient.mk 100 [ClientState.fullscreen, ClientState.maximized]).set_state
          ClientState.fullscreen Operation.toggle).1.set_state
          ClientState.fullscreen Operation.toggle).1.states
      = [ClientState.maximized, ClientState.fullscreen]
  ∧ (((StClient.mk 100 [ClientState.fullscreen, ClientState.maximized]).set_state
          ClientState.fullscreen Operation.toggle).1.set_state
          ClientState.fullscreen Operation.toggle).1
      ≠ StClient.mk 100 [ClientState.fullscreen, ClientState.maximized] := by
  exact ⟨by decide, by decide⟩

/-- Claim C5 (amended).  For a duplicate-free state list, toggling the
same state twice restores the list up to permutation (same elements);
it restores the list *exactly* when the state was absent, or when it was
the last element — otherwise the state is moved to the end. -/
theorem setStateL_toggle_fst (l : List ClientState) (s : ClientState) :
    (setStateL l s Operation.toggle).1
      = if hasStateL l s then l.filter (· != s) else l ++ [s] := by
  show (if hasStateL l s then removeStateL l s else addStateL l s) = _
  by_cases hb : hasStateL l s
  · rw [if_pos hb, if_pos hb]
    unfold removeStateL
    rw [if_pos hb]
  · rw [if_neg hb, if_neg hb]
    unfold addStateL
    rw [if_neg hb]

theorem toggle_twice_absent (l : List ClientState) (s : ClientState)
    (hb : hasStateL l s = false) :
    (setStateL (setStateL l s Operation.toggle).1 s Operation.toggle).1 = l := by
  have h1 : (setStateL l s Operation.toggle).1 = l ++ [s] := by
    rw [setStateL_toggle_fst, if_neg (by simp [hb])]
  rw [h1, setStateL_toggle_fst, if_pos (by simp [hasStateL]),
    List.filter_append, hasStateL_false_filter hb]
  simp

theorem toggle_twice_present (l : List ClientState) (s : ClientState)
    (hb : hasStateL l s = true) :
    (setStateL (setStateL l s Operation.toggle).1 s Operation.toggle).1
      = l.filter (· != s) ++ [s] := by
  have h1 : (setStateL l s Operation.toggle).1 = l.filter (· != s) := by
    rw [setStateL_toggle_fst, if_pos hb]
  rw [h1, setStateL_toggle_fst, if_neg (by simp [hasStateL_filter_self])]

/-- Claim C5 (amended).  For a duplicate-free state list, toggling the
same state twice restores the list up to permutation (same elements);
it restores the list *exactly* when the state was absent, or when it was
the last element — otherwise the state is moved to the end. -/
theorem C5_toggle_twice (c : StClient) (s : ClientState)
    (hnd : c.states.Nodup) :
    ((((c.set_state s Operation.toggle).1.set_state s Operation.toggle).1.states).Perm
        c.states)
  ∧ (c.has_state s = false →
      (((c.set_state s Operation.toggle).1.set_state s Operation.toggle).1 = c))
  ∧ (c.states.getLast? = some s →
      (((c.set_state s Operation.toggle).1.set_state s Operation.toggle).1 = c)) := by
  obtain ⟨wid, l⟩ := c
  have hred :
      (((StClient.mk wid l).set_state s Operation.toggle).1.set_state s
          Operation.toggle).1
        = StClient.mk wid
            (setStateL (setStateL l s Operation.toggle).1 s Operation.toggle).1 := rfl
  rw [hred]
  refine ⟨?_, ?_, ?_⟩
  · show ((setStateL (setStateL l s Operation.toggle).1 s Operation.toggle).1).Perm l
    by_cases hb : hasStateL l s
    · rw [toggle_twice_present l s hb]
      have hmem : s ∈ l := by
        simp only [hasStateL, List.any_eq_true] at hb
        obtain ⟨x, hx, he⟩ := hb
        simp only [beq_iff_eq] at he
        exact he ▸ hx
      exact filter_append_perm_of_mem hnd hmem
    · have hbf : hasStateL l s = false := by
        cases hx : hasStateL l s
        · rfl
        · exact absurd hx hb
      rw [toggle_twice_absent l s hbf]
  · intro hfalse
    have hbf : hasStateL l s = false := hfalse
    exact congrArg (StClient.mk wid) (toggle_twice_absent l s hbf)
  · intro hlast
    have hmem : s ∈ l := by
      cases l with
      | nil => cases hlast
      | cons x xs =>
        have hg := List.getLast?_eq_getLast (x :: xs) (by simp)
        rw [hg] at hlast
        have hs : s = (x :: xs).getLast (by simp) := by
          injection hlast with h; exact h.symm
        rw [hs]; exact List.getLast_mem _
    have hb : hasStateL l s = true := by
      simp only [hasStateL, List.any_eq_true]
      exact ⟨s, hmem, by simp⟩
    have := toggle_twice_present l s hb
    rw [filter_append_eq_of_getLast hnd hlast] at this
    exact congrArg (StClient.mk wid) this

/-- Witness for C5 at a concrete client: toggling `Maximized` twice on
states `[Fullscreen]` restores the client exactly. -/
theorem C5_toggle_twice_witness :
    (((StClient.mk 1 [ClientState.fullscreen]).set_state ClientState.maximized
        Operation.toggle).1.set_state ClientState.maximized Operation.toggle).1
      = StClient.mk 1 [ClientState.fullscreen] :=
  (C5_toggle_twice (StClient.mk 1 [ClientState.fullscreen]) ClientState.maximized
      (by decide)).2.1 (by decide)

/-! Claim C2: the failing input for `Tag::walk`.  Two clients with ids 1
and 2; the focused client (id 1) sits at position 0; direction `Left`
with `n = 1` starts the loop at index 1 (`already_looped = 1`).  After
visiting index 1 and then index 0, the step `idx.checked_sub(1).unwrap_or(0)`
pins `idx` at 0 forever: `clients.get(0)` always succeeds, so the
out-of-bounds reset never fires, and `idx == already_looped` is never
reached. -/

def walkTag : STag :=
  { id := 0, aliasName := "1", focusedWid := 1
    clients := [{ id := 1, is_controlled := true, wmPid := none, states := [] },
                { id := 2, is_controlled := true, wmPid := none, states := [] }] }

theorem walkLoop_stuck_at_zero (fuel : Nat) :
    walkLoop walkTag.clients (fun _ => false) 1 Dir.left 1 1 fuel 0 = none := by
  induction fuel with
  | zero => rfl
  | succ n ih => exact ih

/-- Claim C2 (code bug).  `Tag::walk` on a non-empty client list need
*not* terminate: with clients `[1, 2]`, focused client 1, direction
`Left`, `n = 1` and a predicate matching nothing, the loop runs forever
(no amount of fuel makes it return), although the function's own doc
comment promises `None` "when the function has looped through the
clients vector but no matching client is found". -/
theorem C2_walk_diverges (fuel : Nat) :
    walkTag.walk 1 Dir.left (fun _ => false) fuel = none := by
  cases fuel with
  | zero => rfl
  | succ n => exact walkLoop_stuck_at_zero n

/-- Claim C10, counterexample.  On a single tag holding clients
`[1, 2]`, `Manager::refresh` writes `[2, 1]` to `_NET_CLIENT_LIST`
while `Screen::refresh` writes `[1, 2]` — they are not extensionally
equal. -/
theorem C10_refresh_counterexample :
    managerRefreshIds
        [{ id := 0, aliasName := "1", focusedWid := 0
           clients := [{ id := 1, is_controlled := true, wmPid := none, states := [] },
                       { id := 2, is_controlled := true, wmPid := none, states := [] }] }]
      = [2, 1]
  ∧ screenRefreshIds
        [{ id := 0, aliasName := "1", focusedWid := 0
           clients := [{ id := 1, is_controlled := true, wmPid := none, states := [] },
                       { id := 2, is_controlled := true, wmPid := none, states := [] }] }]
      = [1, 2]
  ∧ managerRefreshIds
        [{ id := 0, aliasName := "1", focusedWid := 0
           clients := [{ id := 1, is_controlled := true, wmPid := none, states := [] },
                       { id := 2, is_controlled := true, wmPid := none, states := [] }] }]
      ≠ screenRefreshIds
        [{ id := 0, aliasName := "1", focusedWid := 0
           clients := [{ id := 1, is_controlled := true, wmPid := none, states := [] },
                       { id := 2, is_controlled := true, wmPid := none, states := [] }] }] := by
  exact ⟨by decide, by decide, by decide⟩

theorem clients_foldl_cons (cs : List SClient) (acc : List SClient) :
    cs.foldl (fun a c => c :: a) acc = cs.reverse ++ acc := by
  induction cs generalizing acc with
  | nil => rfl
  | cons x xs ih => simp [List.foldl_cons, ih, List.append_assoc]

theorem manager_fold_eq (tags : List STag) (acc : List SClient) :
    tags.foldl (fun acc t => t.clients.foldl (fun acc c => c :: acc) acc) acc
      = (flatClients tags).reverse ++ acc := by
  induction tags generalizing acc with
  | nil => rfl
  | cons t ts ih =>
    rw [List.foldl_cons, ih, clients_foldl_cons]
    show _ = (t.clients ++ flatClients ts).reverse ++ acc
    rw [List.reverse_append, List.append_assoc]

theorem screen_fold_eq (tags : List STag) (acc : List SClient) :
    tags.foldl (fun acc t => acc ++ t.clients) acc = acc ++ flatClients tags := by
  induction tags generalizing acc with
  | nil => simp [flatClients]
  | cons t ts ih => simp [List.foldl_cons, ih, flatClients, List.append_assoc]

/-- Claim C10 (amended).  The two refreshes are not equal but exactly
reversed: for every tag vector, `Manager::refresh` (which `push_front`s
while iterating) produces the reverse of the sequence produced by
`Screen::refresh` (which appends in tag iteration order).  They agree
only on sequences that equal their own reverse. -/
theorem C10_refresh_reversed (tags : List STag) :
    managerRefreshIds tags = (screenRefreshIds tags).reverse := by
  unfold managerRefreshIds managerClientList screenRefreshIds screenClientList
  rw [manager_fold_eq, screen_fold_eq]
  simp [List.map_reverse]

/-! ## First-match lookup / first-match update lemmas -/

theorem updateTagF_find_eq (ts : List STag) (id : Nat) (f : STag → STag)
    (hf : ∀ t, (f t).id = t.id) :
    (updateTagF ts id f).find? (fun t => t.id == id)
      = (ts.find? (fun t => t.id == id)).map f := by
  induction ts with
  | nil => rfl
  | cons t rest ih =>
    simp only [updateTagF]
    by_cases h : t.id = id
    · rw [if_pos h, List.find?_cons_of_pos _ (by simp [hf t, h]),
        List.find?_cons_of_pos _ (by simp [h])]
      rfl
    · rw [if_neg h, List.find?_cons_of_neg _ (by simp [h]),
        List.find?_cons_of_neg _ (by simp [h]), ih]

theorem updateTagF_find_ne (ts : List STag) (id other : Nat) (f : STag → STag)
    (hf : ∀ t, (f t).id = t.id) (hne : id ≠ other) :
    (updateTagF ts id f).find? (fun t => t.id == other)
      = ts.find? (fun t => t.id == other) := by
  induction ts with
  | nil => rfl
  | cons t rest ih =>
    simp only [updateTagF]
    by_cases h : t.id = id
    · rw [if_pos h,
        List.find?_cons_of_neg _ (by simp [hf t, h]; exact hne),
        List.find?_cons_of_neg _ (by simp [h]; exact hne)]
    · rw [if_neg h]
      by_cases h2 : t.id = other
      · rw [List.find?_cons_of_pos _ (by simp [h2]),
          List.find?_cons_of_pos _ (by simp [h2])]
      · rw [List.find?_cons_of_neg _ (by simp [h2]),
          List.find?_cons_of_neg _ (by simp [h2]), ih]

theorem updateTagF_map_id (ts : List STag) (id : Nat) (f : STag → STag)
    (hf : ∀ t, (f t).id = t.id) :
    (updateTagF ts id f).map (·.id) = ts.map (·.id) := by
  induction ts with
  | nil => rfl
  | cons t rest ih =>
    simp only [updateTagF]
    by_cases h : t.id = id
    · rw [if_pos h]; simp [hf t]
    · rw [if_neg h]; simp only [List.map_cons, ih]

theorem containsTag_exists {s : Screen} {id : Nat} (h : s.containsTag id = true) :
    ∃ t, s.getTag? id = some t := by
  unfold Screen.containsTag at h
  rw [List.any_eq_true] at h
  obtain ⟨x, hx, hp⟩ := h
  exact Option.isSome_iff_exists.mp (List.find?_isSome.mpr ⟨x, hx, hp⟩)

theorem getTag?_contains {s : Screen} {id : Nat} {t : STag}
    (h : s.getTag? id = some t) : s.containsTag id = true := by
  have h2 : s.tags.find? (fun tg => tg.id == id) = some t := h
  have hp := List.find?_some h2
  unfold Screen.containsTag
  rw [List.any_eq_true]
  exact ⟨t, List.mem_of_find?_eq_some h2, hp⟩

/-! ## Identity / shape lemmas for the tag mutators -/

theorem manageClient_id (t : STag) (c : SClient) : (t.manageClient c).id = t.id := rfl

theorem unmanageClient_id (t : STag) (wid : Nat) :
    (t.unmanageClient wid).id = t.id := rfl

theorem focusClient_id (t : STag) (wid : Nat) : (t.focusClient wid).id = t.id := by
  unfold STag.focusClient
  split <;> rfl

theorem focusClient_clients (t : STag) (wid : Nat) :
    (t.focusClient wid).clients = t.clients := by
  unfold STag.focusClient
  split <;> rfl

theorem swapClients_id (t : STag) (a b : Nat) : (t.swapClients a b).id = t.id := by
  unfold STag.swapClients
  split
  · split <;> rfl
  · rfl

theorem setClientState_id (t : STag) (wid : Nat) (s : ClientState) (op : Operation) :
    (t.setClientState wid s op).id = t.id := rfl

theorem moveSrcMutate_id (cid : Nat) (t : STag) : (moveSrcMutate cid t).id = t.id := by
  unfold moveSrcMutate
  split
  · rw [focusClient_id]; rfl
  · rfl

theorem moveSrcMutate_clients (cid : Nat) (t : STag) :
    (moveSrcMutate cid t).clients = (t.unmanageClient cid).clients := by
  unfold moveSrcMutate
  split
  · rw [focusClient_clients]
  · rfl

theorem moveDestMutate_id (c : SClient) (t : STag) :
    (moveDestMutate c t).id = t.id := by
  unfold moveDestMutate
  rw [focusClient_id, manageClient_id]

theorem moveDestMutate_clients (c : SClient) (t : STag) :
    (moveDestMutate c t).clients = c :: t.clients := by
  unfold moveDestMutate
  rw [focusClient_clients]
  rfl

theorem moveDestMutate_focused (c : SClient) (t : STag) :
    (moveDestMutate c t).focusedWid = c.id := by
  unfold moveDestMutate STag.manageClient STag.focusClient
  rw [if_pos (by simp)]

theorem destroyMutate_id (t : STag) (wid : Nat) :
    (destroyMutate t wid).id = t.id := by
  unfold destroyMutate
  split
  · rfl
  · split
    · split
      · rw [focusClient_id]; rfl
      · rfl
    · rfl

/-! ## Claim C1 -/

/-- The counterexample state for C1: two tags, both present, the source
tag empty (so `focused_wid = 0` matches no client). -/
def c1screen : Screen :=
  { focusedTagId := 0
    tags := [{ id := 0, aliasName := "1", focusedWid := 0, clients := [] },
             { id := 1, aliasName := "2", focusedWid := 0, clients := [] }] }

/-- Claim C1, counterexample.  Both tags 0 and 1 exist, yet
`move_focused_client(0, 1)` does not return `Ok`: the source tag has no
focused client, so `get_focused_client_mut().unwrap()` panics. -/
theorem C1_move_counterexample :
    c1screen.containsTag 0 = true ∧ c1screen.containsTag 1 = true
  ∧ c1screen.moveFocusedClient 0 1 = MoveResult.panicked :=
  ⟨by decide, by decide, by decide⟩

/-- Claim C1 (amended).  When either tag is missing,
`move_focused_client` returns `TagNotFound` for that tag (source checked
first) with the state untouched.  When both tags exist *and the source
tag's focused client is present in its client list*, the call returns
`Ok`; if moreover `src ≠ dest`, the moved client is removed from the
source tag, pushed to the front of the destination tag, and becomes the
destination's focused client.  When the source tag has no focused client
(e.g. it is empty), the call panics instead of returning `Ok`. -/
theorem C1_move_focused_client (s : Screen) (src dest : Nat) :
    (s.containsTag src = false →
      s.moveFocusedClient src dest = MoveResult.tagNotFound src s)
  ∧ (s.containsTag src = true → s.containsTag dest = false →
      s.moveFocusedClient src dest = MoveResult.tagNotFound dest s)
  ∧ (∀ st c, s.getTag? src = some st → st.getFocusedClient? = some c →
      s.containsTag dest = true → src ≠ dest →
      ∃ s' ts td,
        s.moveFocusedClient src dest = MoveResult.ok s'
        ∧ s'.getTag? src = some ts
        ∧ s'.getTag? dest = some td
        ∧ (∀ x ∈ ts.clients, x.id ≠ c.id)
        ∧ td.clients.head? = some c
        ∧ td.focusedWid = c.id) := by
  refine ⟨?_, ?_, ?_⟩
  · intro h
    unfold Screen.moveFocusedClient
    rw [if_pos h]
  · intro h1 h2
    unfold Screen.moveFocusedClient
    rw [if_neg (by simp [h1]), if_pos h2]
  · intro st c hT hC hdest hne
    have hsrc : s.containsTag src = true := getTag?_contains hT
    have hrun : s.moveFocusedClient src dest
        = MoveResult.ok
            { focusedTagId := s.focusedTagId
              tags := updateTagF (updateTagF s.tags src (moveSrcMutate c.id))
                        dest (moveDestMutate c) } := by
      unfold Screen.moveFocusedClient
      rw [if_neg (by simp [hsrc]), if_neg (by simp [hdest]), hT]
      simp only [hC]
    obtain ⟨td0, hTd0⟩ := containsTag_exists hdest
    refine ⟨_, moveSrcMutate c.id st, moveDestMutate c td0, hrun, ?_, ?_, ?_, ?_, ?_⟩
    · show (updateTagF (updateTagF s.tags src (moveSrcMutate c.id))
          dest (moveDestMutate c)).find? (fun t => t.id == src)
        = some (moveSrcMutate c.id st)
      rw [updateTagF_find_ne _ dest src _ (moveDestMutate_id c) (Ne.symm hne),
        updateTagF_find_eq _ src _ (moveSrcMutate_id c.id),
        show s.tags.find? (fun t => t.id == src) = some st from hT]
      rfl
    · show (updateTagF (updateTagF s.tags src (moveSrcMutate c.id))
          dest (moveDestMutate c)).find? (fun t => t.id == dest)
        = some (moveDestMutate c td0)
      rw [updateTagF_find_eq _ dest _ (moveDestMutate_id c),
        updateTagF_find_ne _ src dest _ (moveSrcMutate_id c.id) hne,
        show s.tags.find? (fun t => t.id == dest) = some td0 from hTd0]
      rfl
    · intro x hx
      rw [moveSrcMutate_clients] at hx
      have hp := List.of_mem_filter hx
      simpa [bne_iff_ne] using hp
    · rw [moveDestMutate_clients]
      rfl
    · exact moveDestMutate_focused c td0

/-- A concrete state for the C1 witness: tag 0 holds the focused client
10, tag 1 is empty. -/
def c1wscreen : Screen :=
  { focusedTagId := 0
    tags := [{ id := 0, aliasName := "1", focusedWid := 10
               clients := [{ id := 10, is_controlled := true, wmPid := none,
                             states := [] }] },
             { id := 1, aliasName := "2", focusedWid := 0, clients := [] }] }

/-- Witness for C1: moving the focused client 10 from tag 0 to tag 1. -/
theorem C1_move_focused_client_witness :
    ∃ s' ts td,
      c1wscreen.moveFocusedClient 0 1 = MoveResult.ok s'
      ∧ s'.getTag? 0 = some ts
      ∧ s'.getTag? 1 = some td
      ∧ (∀ x ∈ ts.clients,
          x.id ≠ (SClient.mk 10 true none [] : SClient).id)
      ∧ td.clients.head? = some (SClient.mk 10 true none [])
      ∧ td.focusedWid = (SClient.mk 10 true none [] : SClient).id :=
  (C1_move_focused_client c1wscreen 0 1).2.2
    (STag.mk 0 "1" 10 [SClient.mk 10 true none []])
    (SClient.mk 10 true none [])
    rfl rfl (by decide) (by decide)

/-! ## Claim C7: tag-vector invariants -/

theorem viewTag_tags {s : Screen} {id : Nat} {s' : Screen}
    (h : s.viewTag id = .ok s') : s'.tags = s.tags := by
  unfold Screen.viewTag at h
  split at h
  · injection h with h
    rw [← h]
  · split at h
    · cases h
    · injection h with h
      rw [← h]

theorem move_ok_tags {s : Screen} {src dest : Nat} {s' : Screen}
    (h : s.moveFocusedClient src dest = .ok s') :
    ∃ cid client,
      s'.tags = updateTagF (updateTagF s.tags src (moveSrcMutate cid))
                  dest (moveDestMutate client) := by
  unfold Screen.moveFocusedClient at h
  split at h
  · cases h
  · split at h
    · cases h
    · split at h
      · cases h
      · split at h
        · cases h
        · injection h with h
          exact ⟨_, _, by rw [← h]⟩

theorem destroy_tags {s : Screen} {wid : Nat} {s' : Screen} {cmds : List XCmd}
    (h : onDestroyNotify s wid = some (s', cmds)) :
    s'.tags = updateTagF s.tags s.focusedTagId (fun t => destroyMutate t wid)
  ∨ s'.tags = s.tags := by
  unfold onDestroyNotify at h
  split at h
  · cases h
  · split at h
    · injection h with h
      injection h with h1 h2
      right
      rw [← h1]
    · injection h with h
      injection h with h1 h2
      left
      rw [← h1]

theorem step_tags_map {s s' : Screen} (h : Step s s') :
    s'.tags.map (·.id) = s.tags.map (·.id) := by
  cases h with
  | view id hv => rw [viewTag_tags hv]
  | move src dest hm =>
    obtain ⟨cid, client, he⟩ := move_ok_tags hm
    rw [he, updateTagF_map_id _ _ _ (moveDestMutate_id client),
      updateTagF_map_id _ _ _ (moveSrcMutate_id cid)]
  | manage tid c =>
    exact updateTagF_map_id _ _ _ (fun t => manageClient_id t c)
  | unmanage tid wid =>
    exact updateTagF_map_id _ _ _ (fun t => unmanageClient_id t wid)
  | focus tid wid =>
    exact updateTagF_map_id _ _ _ (fun t => focusClient_id t wid)
  | swap tid a b =>
    exact updateTagF_map_id _ _ _ (fun t => swapClients_id t a b)
  | clientState tid wid st op =>
    exact updateTagF_map_id _ _ _ (fun t => setClientState_id t wid st op)
  | destroy wid cmds hd =>
    rcases destroy_tags hd with he | he
    · rw [he, updateTagF_map_id _ _ _ (fun t => destroyMutate_id t wid)]
    · rw [he]

/-- Claim C7, counterexample.  `Manager::new` (`src/tag/mod.rs:375`)
appends the sticky tag with id `(tags.len() - 1) as u32`, not the
all-ones sentinel: with two normal tags 0 and 1 the sticky tag gets id
1 — a collision with the last normal tag, and `1 ≠ 0xFFFFFFFF`. -/
theorem C7_manager_sticky_counterexample :
    ((managerNewTags
          [{ id := 0, aliasName := "1", focusedWid := 0, clients := [] },
           { id := 1, aliasName := "2", focusedWid := 0, clients := [] }]).getLast?).map
        (·.id) = some 1
  ∧ (1 : Nat) ≠ 4294967295
  ∧ (managerNewTags
        [{ id := 0, aliasName := "1", focusedWid := 0, clients := [] },
         { id := 1, aliasName := "2", focusedWid := 0, clients := [] }]).map (·.id)
      = [0, 1, 1] :=
  ⟨by decide, by decide, by decide⟩

/-- Claim C7 (amended).  For the `Screen` implementation: in every state
reachable from `Screen::new` the sequence of tag ids is exactly the one
built at construction (no operation creates or destroys tags), the tag
vector is non-empty, and its last element is the sticky tag with the
reserved id `0xFFFFFFFF`.  (`Manager::new` instead gives the sticky tag
the colliding id `tags.len() - 1`; see the counterexample.) -/
theorem C7_screen_tags_invariant (s : Screen) (h : Reachable s) :
    s.tags.map (·.id) = Screen.init.tags.map (·.id)
  ∧ s.tags ≠ []
  ∧ (s.tags.getLast?).map (·.id) = some 4294967295 := by
  have key : s.tags.map (·.id) = Screen.init.tags.map (·.id) := by
    induction h with
    | init => rfl
    | step hr hs ih => rw [step_tags_map hs, ih]
  refine ⟨key, ?_, ?_⟩
  · intro hnil
    have h2 : Screen.init.tags.map (·.id) = [] := by
      rw [← key, hnil]
      rfl
    exact absurd h2 (by decide)
  · have h3 : (s.tags.map (·.id)).getLast? = some 4294967295 := by
      rw [key]; decide
    rw [List.getLast?_map] at h3
    exact h3

/-- Witness for C7 at the construction state itself. -/
theorem C7_screen_tags_invariant_witness :
    Screen.init.tags.map (·.id) = Screen.init.tags.map (·.id)
  ∧ Screen.init.tags ≠ []
  ∧ (Screen.init.tags.getLast?).map (·.id) = some 4294967295 :=
  C7_screen_tags_invariant Screen.init Reachable.init

/-! ## Claim C8 -/

/-- A state with one managed client (id 301) on the focused tag whose
process id is known (`wm_pid = Some 1234`). -/
def c8screen : Screen :=
  { focusedTagId := 0
    tags := [{ id := 0, aliasName := "1", focusedWid := 301
               clients := [{ id := 301, is_controlled := true,
                             wmPid := some 1234, states := [] }] }] }

/-- Claim C8 (code bug).  `Client::kill` itself only ever sends the
polite `WM_DELETE_WINDOW` message or an X `KillClient` request — never a
process kill.  But the `on_destroy_notify` handler
(`src/handlers.rs:81`, `src/window_manager.rs:367`) *does* spawn
`kill -9 <pid>` against the destroyed client's OS process whenever the
client's `wm_pid` is known, contradicting the claim (and the spec's
"must not be patched up with a process-kill fallback"). -/
theorem C8_destroy_notify_spawns_sigkill :
    (onDestroyNotify c8screen 301).map Prod.snd = some [XCmd.processKill9 1234]
  ∧ (∀ (c : NClient) (atom pid : Nat), c.kill atom ≠ XCmd.processKill9 pid) := by
  constructor
  · decide
  · intro c atom pid h
    unfold NClient.kill at h
    split at h <;> cases h

/-! ## Claim C3 -/

theorem wsub_eq {a b : Nat} (h1 : b ≤ a) (h2 : a < M32) : wsub a b = a - b := by
  unfold wsub w32
  have hb : b % M32 = b := Nat.mod_eq_of_lt (lt_of_le_of_lt h1 h2)
  rw [hb]
  have he : a + M32 - b = M32 + (a - b) := by omega
  rw [he, Nat.add_mod_left, Nat.mod_eq_of_lt (by omega)]

theorem wadd_eq {a b : Nat} (h : a + b < M32) : wadd a b = a + b := by
  unfold wadd w32
  exact Nat.mod_eq_of_lt h

theorem wmul_eq {a b : Nat} (h : a * b < M32) : wmul a b = a * b := by
  unfold wmul w32
  exact Nat.mod_eq_of_lt h

/-- The single tileable client of the C3 counterexample: a 30-pixel left
strut, controlled, no states. -/
def c3client : RClient :=
  { id := 100, paddingTop := 0, paddingBottom := 0, paddingLeft := 30
    paddingRight := 0, states := [], is_controlled := true }

/-- Claim C3, counterexample.  Screen 800×600, border 1, gap 5, one
tileable client with `padding_left = 30`.  The claim predicts
`x = useless_gap + padding_left = 35` (and a minimum-1 clamp); the code
assigns `x = gap_size = 5` — `padding_left` is never added to `x`, and
no clamping exists anywhere in the computation. -/
theorem C3_redraw_counterexample :
    redrawCmds 1 5 800 600 [c3client]
      = [{ wid := 100, border := 1, h := 588, w := 758, x := 5, y := 5 }]
  ∧ (redrawCmds 1 5 800 600 [c3client]).map (·.x) ≠ [5 + maxPaddingLeft [c3client]] :=
  ⟨by decide, by decide⟩

/-- Claim C3 (amended).  When the tileable (`last_state ≠ Hidden` and
controlled) set contains exactly one client, the emitted configure
request gives it width `available_w − 2·border − 2·gap` and height
`available_h − 2·border − 2·gap` as claimed, but anchors it at
`x = useless_gap` (`padding_left` is *not* added) and
`y = useless_gap + padding_top`, with no minimum-1 clamping of any
coordinate.  The bounds hypotheses keep the `u32` arithmetic exact. -/
theorem C3_redraw_single (b g sw sh : Nat) (clients : List RClient) (c : RClient)
    (hone : clients.filter normalB = [c])
    (hsw : sw < M32) (hsh : sh < M32)
    (hw : maxPaddingLeft clients + maxPaddingRight clients ≤ sw)
    (hh : maxPaddingTop clients + maxPaddingBottom clients ≤ sh)
    (hbw : 2 * b + 2 * g ≤ sw - maxPaddingLeft clients - maxPaddingRight clients)
    (hbh : 2 * b + 2 * g ≤ sh - maxPaddingTop clients - maxPaddingBottom clients) :
    (redrawCmds b g sw sh clients).head? = some
      { wid := c.id
        border := b
        h := sh - maxPaddingTop clients - maxPaddingBottom clients - 2 * b - 2 * g
        w := sw - maxPaddingLeft clients - maxPaddingRight clients - 2 * b - 2 * g
        x := g
        y := g + maxPaddingTop clients } := by
  simp only [redrawCmds, hone]
  have iwl : wsub sw (maxPaddingLeft clients) = sw - maxPaddingLeft clients :=
    wsub_eq (by omega) hsw
  rw [iwl]
  have iwr : wsub (sw - maxPaddingLeft clients) (maxPaddingRight clients)
      = sw - maxPaddingLeft clients - maxPaddingRight clients :=
    wsub_eq (by omega) (by omega)
  rw [iwr]
  have iht : wsub sh (maxPaddingTop clients) = sh - maxPaddingTop clients :=
    wsub_eq (by omega) hsh
  rw [iht]
  have ihb : wsub (sh - maxPaddingTop clients) (maxPaddingBottom clients)
      = sh - maxPaddingTop clients - maxPaddingBottom clients :=
    wsub_eq (by omega) (by omega)
  rw [ihb]
  have ib : wmul b 2 = b * 2 := wmul_eq (by omega)
  rw [ib]
  have ig : wmul g 2 = g * 2 := wmul_eq (by omega)
  rw [ig]
  have ih1 : wsub (sh - maxPaddingTop clients - maxPaddingBottom clients) (b * 2)
      = sh - maxPaddingTop clients - maxPaddingBottom clients - b * 2 :=
    wsub_eq (by omega) (by omega)
  rw [ih1]
  have ih2 : wsub (sh - maxPaddingTop clients - maxPaddingBottom clients - b * 2) (g * 2)
      = sh - maxPaddingTop clients - maxPaddingBottom clients - b * 2 - g * 2 :=
    wsub_eq (by omega) (by omega)
  rw [ih2]
  have iw1 : wsub (sw - maxPaddingLeft clients - maxPaddingRight clients) (b * 2)
      = sw - maxPaddingLeft clients - maxPaddingRight clients - b * 2 :=
    wsub_eq (by omega) (by omega)
  rw [iw1]
  have iw2 : wsub (sw - maxPaddingLeft clients - maxPaddingRight clients - b * 2) (g * 2)
      = sw - maxPaddingLeft clients - maxPaddingRight clients - b * 2 - g * 2 :=
    wsub_eq (by omega) (by omega)
  rw [iw2]
  have iy : wadd g (maxPaddingTop clients) = g + maxPaddingTop clients :=
    wadd_eq (by omega)
  rw [iy]
  simp only [List.enum, List.enumFrom, List.map_cons, List.map_nil, List.length_cons,
    List.length_nil, List.cons_append, List.head?_cons, if_pos]
  simp only [Option.some.injEq, ConfigureCmd.mk.injEq]
  and_intros <;> first | trivial | omega

/-- Witness for C3 at the counterexample configuration. -/
theorem C3_redraw_single_witness :
    (redrawCmds 1 5 800 600 [c3client]).head? = some
      { wid := c3client.id
        border := 1
        h := 600 - maxPaddingTop [c3client] - maxPaddingBottom [c3client] - 2 * 1 - 2 * 5
        w := 800 - maxPaddingLeft [c3client] - maxPaddingRight [c3client] - 2 * 1 - 2 * 5
        x := 5
        y := 5 + maxPaddingTop [c3client] } :=
  C3_redraw_single 1 5 800 600 [c3client] c3client (by decide) (by decide)
    (by decide) (by decide) (by decide) (by decide) (by decide)

end Sapphire
